import Mathlib

/-!
Shallow embedding of `src/ecourt_fetcher.py` (class `ECourtsScraper`).

Modelling conventions:
* A parsed markup document is a flat list of the nodes relevant to the
  scraper: `h3` headings, `h4` headings and `table` elements.  A table
  carries its multi-valued `class` attribute (BeautifulSoup stores it as a
  list of strings) and its rows, each row being the list of the text
  contents of its `td` cells.
* `get_text(strip=True)` on a cell or heading is modelled by `pyStrip`
  (leading/trailing whitespace removed).
* Python's `str.replace(':', '')` is modelled by `removeColons` (every
  colon removed).
* A Python dict is an insertion-ordered association list `PyDict` with
  overwrite-in-place assignment (`dictSet`) and lookup (`dictGet`).
* `datetime.now()` is modelled by an explicit reference date parameter;
  `strftime` on `%d/%m/%Y` resp. `%d-%m-%Y` by `fmtSlash` / `fmtDash`,
  and `timedelta(days=1)` by calendar successor `nextDay`.
* The network exchange `self.session.post(...)` is modelled by an
  `Except String HtmlDoc` parameter: `.ok doc` is a response whose body
  parses to `doc`, `.error e` is the request raising an exception with
  message `e`.
-/

namespace ECourts

/-- Model of `get_text(strip=True)`: strip whitespace from both ends. -/
def pyStrip (s : String) : String :=
  String.mk (((s.data.dropWhile Char.isWhitespace).reverse.dropWhile Char.isWhitespace).reverse)

/-- Model of `.replace(':', '')`: remove every colon character. -/
def removeColons (s : String) : String :=
  String.mk (s.data.filter (fun c => c ≠ ':'))

/-- A calendar date, standing for the reference instant `datetime.now()`. -/
structure Date where
  day : Nat
  month : Nat
  year : Nat
deriving Repr, DecidableEq

def isLeap (y : Nat) : Bool :=
  (y % 4 == 0 && y % 100 != 0) || y % 400 == 0

def daysInMonth (y m : Nat) : Nat :=
  if m = 2 then (if isLeap y then 29 else 28)
  else if m = 4 ∨ m = 6 ∨ m = 9 ∨ m = 11 then 30
  else 31

/-- Model of `datetime + timedelta(days=1)`. -/
def nextDay (d : Date) : Date :=
  if d.day < daysInMonth d.year d.month then ⟨d.day + 1, d.month, d.year⟩
  else if d.month < 12 then ⟨1, d.month + 1, d.year⟩
  else ⟨1, 1, d.year + 1⟩

def pad2 (n : Nat) : String :=
  if n < 10 then "0" ++ toString n else toString n

/-- Model of `strftime('%d/%m/%Y')`. -/
def fmtSlash (d : Date) : String :=
  pad2 d.day ++ "/" ++ pad2 d.month ++ "/" ++ toString d.year

/-- Model of `strftime('%d-%m-%Y')`. -/
def fmtDash (d : Date) : String :=
  pad2 d.day ++ "-" ++ pad2 d.month ++ "-" ++ toString d.year

/-- A `<table>` element: its `class` attribute (multi-valued, as
BeautifulSoup stores it) and its rows of `td`-cell texts. -/
structure HTable where
  classes : List String
  rows : List (List String)
deriving Repr, DecidableEq

/-- A document node relevant to the scraper. -/
inductive DNode where
  | h3 (text : String)
  | h4 (text : String)
  | table (t : HTable)
deriving Repr, DecidableEq

/-- A parsed markup document, in document order. -/
abbrev HtmlDoc := List DNode

/-- `soup.find('table', class_=c)` for a single class name: BeautifulSoup
matches a single-class filter against any one of the element's classes. -/
def findTableByClassWord (doc : HtmlDoc) (c : String) : Option HTable :=
  doc.findSome? fun n =>
    match n with
    | .table t => if t.classes.contains c then some t else none
    | _ => none

/-- `soup.find('table', class_="c1 c2")` for a multi-class filter string:
BeautifulSoup matches it against the exact class attribute value. -/
def findTableByClassExact (doc : HtmlDoc) (cs : List String) : Option HTable :=
  doc.findSome? fun n =>
    match n with
    | .table t => if t.classes = cs then some t else none
    | _ => none

/-- `soup.find_all('table', class_=c)`, keeping each table's position in
the document so that `find_previous` can be expressed. -/
def findAllTablesByClassWord (doc : HtmlDoc) (c : String) : List (Nat × HTable) :=
  doc.enum.filterMap fun p =>
    match p.2 with
    | .table t => if t.classes.contains c then some (p.1, t) else none
    | _ => none

/-- `element.find_previous(...)`: search backward, from the node at
position `i` exclusive, for the first node on which `f` fires. -/
def findPrev (doc : HtmlDoc) (i : Nat) (f : DNode → Option String) : Option String :=
  (doc.take i).reverse.findSome? f

/-- One element of the `hearing_dates` list built by
`_parse_case_response`: `{'date': …, 'purpose': …, 'stage': …}`. -/
structure HearingEntry where
  date : String
  purpose : String
  stage : String
deriving Repr, DecidableEq

/-- Values a `case_info` dict entry can hold. -/
inductive Val where
  | str (s : String)
  | bool (b : Bool)
  | vnone
  | entry (h : HearingEntry)
  | entries (l : List HearingEntry)
deriving Repr, DecidableEq

/-- An insertion-ordered Python dict with string keys. -/
abbrev PyDict := List (String × Val)

/-- Python dict assignment `d[k] = v`: overwrite in place, else append. -/
def dictSet : PyDict → String → Val → PyDict
  | [], k, v => [(k, v)]
  | p :: rest, k, v =>
    if p.1 = k then (p.1, v) :: rest else p :: dictSet rest k v

/-- Python dict lookup `d.get(k)`. -/
def dictGet : PyDict → String → Option Val
  | [], _ => none
  | p :: rest, k => if p.1 = k then some p.2 else dictGet rest k

/-- `case_info.update(identifiers)` starting from the empty dict: seed the
caller-supplied identifier fields in order. -/
def seedIdentifiers (ids : List (String × String)) : PyDict :=
  ids.foldl (fun d kv => dictSet d kv.1 (.str kv.2)) []

/-- One iteration of the case-details row loop in `_parse_case_response`
(lines 70-76): rows with at least two cells contribute
`key = cells[0].get_text(strip=True).replace(':', '')` and
`value = cells[1].get_text(strip=True)`, skipped when either is empty. -/
def caseFieldsStep (d : PyDict) (cells : List String) : PyDict :=
  if 2 ≤ cells.length then
    let key := removeColons (pyStrip (cells.getD 0 ""))
    let value := pyStrip (cells.getD 1 "")
    if key ≠ "" ∧ value ≠ "" then dictSet d key (.str value) else d
  else d

/-- One iteration of the hearing-history row loop in
`_parse_case_response` (lines 83-95): rows with at least three cells and
a non-empty stripped date cell append a `HearingEntry` built from cells
0-2. -/
def hearingStep (acc : List HearingEntry) (cells : List String) : List HearingEntry :=
  if 3 ≤ cells.length then
    let hearing_date := pyStrip (cells.getD 0 "")
    let purpose := pyStrip (cells.getD 1 "")
    let stage := pyStrip (cells.getD 2 "")
    if hearing_date ≠ "" then acc ++ [⟨hearing_date, purpose, stage⟩] else acc
  else acc

/-- The hearing-history part of `_parse_case_response` (lines 79-95):
find the table with class attribute exactly `"table table-bordered"`,
skip its first row (`[1:]`), and run the row loop. -/
def extract_hearing_dates (doc : HtmlDoc) : List HearingEntry :=
  match findTableByClassExact doc ["table", "table-bordered"] with
  | none => []
  | some t => (t.rows.drop 1).foldl hearingStep []

/-- One iteration of the classification loop in `_parse_case_response`
(lines 109-115): an `if date == today` / `elif date == tomorrow` chain
with no break. -/
def classifyStep (today tomorrow : String) (d : PyDict) (h : HearingEntry) : PyDict :=
  if h.date = today then
    dictSet (dictSet d "listed_today" (.bool true)) "next_hearing" (.entry h)
  else if h.date = tomorrow then
    dictSet (dictSet d "listed_tomorrow" (.bool true)) "next_hearing" (.entry h)
  else d

/-- The whole classification loop over `hearing_dates`. -/
def classifyLoop (today tomorrow : String) (d : PyDict) (hs : List HearingEntry) : PyDict :=
  hs.foldl (classifyStep today tomorrow) d

/-- `_parse_case_response(html_content, **identifiers)`, with the parsed
document, the identifier keyword arguments, and the reference date of
`datetime.now()` made explicit. -/
def parse_case_response (doc : HtmlDoc) (identifiers : List (String × String))
    (now : Date) : PyDict :=
  let case_info := seedIdentifiers identifiers
  let case_info :=
    match findTableByClassWord doc "table" with
    | some t => t.rows.foldl caseFieldsStep case_info
    | none => case_info
  let hearing_dates := extract_hearing_dates doc
  let case_info := dictSet case_info "hearing_dates" (.entries hearing_dates)
  let today := fmtSlash now
  let tomorrow := fmtSlash (nextDay now)
  let case_info := dictSet case_info "listed_today" (.bool false)
  let case_info := dictSet case_info "listed_tomorrow" (.bool false)
  let case_info := dictSet case_info "next_hearing" .vnone
  let case_info := dictSet case_info "serial_number" .vnone
  let case_info := dictSet case_info "court_name" .vnone
  classifyLoop today tomorrow case_info hearing_dates

/-- One entry of the parsed cause list (`_parse_cause_list`, lines 151-158). -/
structure CauseListEntry where
  date : String
  serial_number : String
  case_number : String
  parties : String
  purpose : String
  court_name : String
deriving Repr, DecidableEq

/-- `_extract_court_name(table_element)` (lines 163-169) for the table at
position `i`: `find_previous('h3') or find_previous('h4')`, i.e. any
preceding `h3` takes precedence over a nearer preceding `h4`; fall back
to `"Unknown Court"`. -/
def extract_court_name (doc : HtmlDoc) (i : Nat) : String :=
  match findPrev doc i (fun n => match n with | .h3 s => some (pyStrip s) | _ => none) with
  | some s => s
  | none =>
    match findPrev doc i (fun n => match n with | .h4 s => some (pyStrip s) | _ => none) with
    | some s => s
    | none => "Unknown Court"

/-- One row of `_parse_cause_list` (lines 148-159), for the table sitting
at position `i` of the document: rows with at least four cells become a
`CauseListEntry` from cells 0-3, the supplied date, and the court name
resolved from the table's position. -/
def causeRow (doc : HtmlDoc) (i : Nat) (date : String) (cells : List String) :
    Option CauseListEntry :=
  if 4 ≤ cells.length then
    some { date := date,
           serial_number := pyStrip (cells.getD 0 ""),
           case_number := pyStrip (cells.getD 1 ""),
           parties := pyStrip (cells.getD 2 ""),
           purpose := pyStrip (cells.getD 3 ""),
           court_name := extract_court_name doc i }
  else none

/-- `_parse_cause_list(html_content, date)` (lines 139-161): for every
table with class `table`, skip the first row (`[1:]`) and append the
entries built from the remaining rows, in document order. -/
def parse_cause_list (doc : HtmlDoc) (date : String) : List CauseListEntry :=
  (findAllTablesByClassWord doc "table").foldl
    (fun acc it => acc ++ (it.2.rows.drop 1).filterMap (causeRow doc it.1 date)) []

/-- `get_case_details_by_cnr(cnr_number)` (lines 26-38): on a successful
exchange parse the response with the CNR echoed as identifier; if the
request raises, return the error dict instead of propagating. -/
def get_case_details_by_cnr (fetch : Except String HtmlDoc) (cnr_number : String)
    (now : Date) : PyDict :=
  match fetch with
  | .ok doc => parse_case_response doc [("cnr_number", cnr_number)] now
  | .error e => [("error", .str ("Failed to fetch case details: " ++ e))]

/-- `get_case_details_by_number(...)` (lines 40-57). -/
def get_case_details_by_number (fetch : Except String HtmlDoc)
    (case_type case_number case_year : String) (now : Date) : PyDict :=
  match fetch with
  | .ok doc =>
    parse_case_response doc
      [("case_number", case_type ++ "/" ++ case_number ++ "/" ++ case_year)] now
  | .error e => [("error", .str ("Failed to fetch case details: " ++ e))]

/-- Return type of `download_cause_list`: either the parsed list or, on a
raised exception, a dict carrying an `error` field. -/
inductive CauseListResult where
  | list (entries : List CauseListEntry)
  | errorDict (d : PyDict)
deriving Repr, DecidableEq

/-- `download_cause_list(state_code, dist_code, court_code, date)`
(lines 119-137): default the date to today's `%d-%m-%Y` rendering, then
either parse the response or return the error dict if the request raises. -/
def download_cause_list (fetch : Except String HtmlDoc) (dateArg : Option String)
    (now : Date) : CauseListResult :=
  let date := dateArg.getD (fmtDash now)
  match fetch with
  | .ok doc => .list (parse_cause_list doc date)
  | .error e => .errorDict [("error", .str ("Failed to download cause list: " ++ e))]

/-- The case-details-table part of `_parse_case_response` (lines 67-76),
named for use in proofs; `parse_case_response` is definitionally this
followed by the remaining steps. -/
def caseFieldsPart (doc : HtmlDoc) (d : PyDict) : PyDict :=
  match findTableByClassWord doc "table" with
  | some t => t.rows.foldl caseFieldsStep d
  | none => d

/-- The `case_info` dict as it stands right before the classification
loop of `_parse_case_response` (after line 107). -/
def preClassify (doc : HtmlDoc) (ids : List (String × String)) : PyDict :=
  dictSet (dictSet (dictSet (dictSet (dictSet
    (dictSet (caseFieldsPart doc (seedIdentifiers ids))
      "hearing_dates" (.entries (extract_hearing_dates doc)))
    "listed_today" (.bool false))
    "listed_tomorrow" (.bool false))
    "next_hearing" .vnone)
    "serial_number" .vnone)
    "court_name" .vnone

/-- The keys `_parse_case_response` always assigns after seeding the
identifiers and the portal fields (lines 97 and 103-107). -/
def reservedKeys : List String :=
  ["hearing_dates", "listed_today", "listed_tomorrow", "next_hearing",
   "serial_number", "court_name"]

/-- Whether some entry's date string equals today's rendering. -/
def anyToday (today : String) (hs : List HearingEntry) : Bool :=
  hs.any (fun h => h.date == today)

/-- Whether some entry's date string equals tomorrow's rendering without
equaling today's (the `elif` guard of the classification loop). -/
def anyTomorrowOnly (today tomorrow : String) (hs : List HearingEntry) : Bool :=
  hs.any (fun h => !(h.date == today) && h.date == tomorrow)

/-- The last entry, in order, whose date matches today or tomorrow. -/
def lastListed (today tomorrow : String) (hs : List HearingEntry) : Option HearingEntry :=
  hs.foldl (fun acc h => if h.date = today ∨ h.date = tomorrow then some h else acc) none

/-- The hearing-history row condition and constructor, as a partial map
on rows: defined for rows with at least three cells and a non-empty
stripped date cell. -/
def hearingRowToEntry (cells : List String) : Option HearingEntry :=
  if 3 ≤ cells.length ∧ pyStrip (cells.getD 0 "") ≠ "" then
    some ⟨pyStrip (cells.getD 0 ""), pyStrip (cells.getD 1 ""), pyStrip (cells.getD 2 "")⟩
  else none

/-- Modelled from the spec: "searching backward through the document for
the nearest preceding level-3 or level-4 heading element" — whichever of
the two kinds is closest to the table at position `i`.  Stated for
comparison with the code's `extract_court_name`. -/
def specNearestHeading (doc : HtmlDoc) (i : Nat) : Option String :=
  findPrev doc i
    (fun n => match n with
              | .h3 s => some (pyStrip s)
              | .h4 s => some (pyStrip s)
              | _ => none)

/-- A response document holding a single case-details table (class
`table`) with the given rows. -/
def caseTableDoc (rows : List (List String)) : HtmlDoc :=
  [.table ⟨["table"], rows⟩]

/-- A response containing only the hearing-history table, with one entry
dated today and one dated tomorrow relative to 2025-01-01. -/
def docC1 : HtmlDoc :=
  [.table ⟨["table", "table-bordered"],
    [["Date", "Purpose", "Stage"], ["01/01/2025", "p1", "s1"], ["02/01/2025", "p2", "s2"]]⟩]

/-- The same scenario again, for the first-match-wins claim. -/
def docC2 : HtmlDoc :=
  [.table ⟨["table", "table-bordered"],
    [["Date", "Purpose", "Stage"], ["01/01/2025", "p1", "s1"], ["02/01/2025", "p2", "s2"]]⟩]

/-- A response whose single hearing entry matches neither today nor
tomorrow relative to 2025-01-01. -/
def docC3 : HtmlDoc :=
  [.table ⟨["table", "table-bordered"],
    [["Date", "Purpose", "Stage"], ["05/01/2025", "p", "s"]]⟩]

/-- A response with no table at all. -/
def docC4 : HtmlDoc := [.h3 "Some heading"]

/-- A response whose case-details table has a label with interior and
trailing colons. -/
def docC5 : HtmlDoc := [.table ⟨["table"], [[" Case:Type: ", " Civil "]]⟩]

/-- A cause-list page where an `h3` is followed by a nearer `h4` before
the single table. -/
def docC7 : HtmlDoc :=
  [.h3 " Court A ", .h4 " Court B ",
   .table ⟨["table"],
     [["SN", "Case", "Parties", "Purpose"], ["1", "C1", "P vs Q", "Hearing"]]⟩]

/-- A cause-list page with two tables, each immediately preceded by its
own distinct `h3` heading. -/
def docC7b : HtmlDoc :=
  [.h3 "Court A",
   .table ⟨["table"],
     [["SN", "Case", "Parties", "Purpose"], ["1", "C1", "P vs Q", "Hearing"]]⟩,
   .h3 "Court B",
   .table ⟨["table"],
     [["SN", "Case", "Parties", "Purpose"], ["2", "C2", "R vs S", "Orders"]]⟩]

theorem dictGet_dictSet_self (d : PyDict) (k : String) (v : Val) :
    dictGet (dictSet d k v) k = some v := by
  induction d with
  | nil => simp [dictSet, dictGet]
  | cons p rest ih =>
    by_cases hp : p.1 = k
    · simp [dictSet, dictGet, hp]
    · simp [dictSet, dictGet, hp, ih]

theorem dictGet_dictSet_ne (d : PyDict) (k k' : String) (v : Val) (hne : k' ≠ k) :
    dictGet (dictSet d k v) k' = dictGet d k' := by
  induction d with
  | nil => simp [dictSet, dictGet, Ne.symm hne]
  | cons p rest ih =>
    by_cases hp : p.1 = k
    · simp [dictSet, dictGet, hp, Ne.symm hne]
    · simp [dictSet, dictGet, hp, ih]

theorem classifyLoop_nil (t tm : String) (d : PyDict) : classifyLoop t tm d [] = d := rfl

theorem classifyLoop_cons (t tm : String) (d : PyDict) (h : HearingEntry)
    (hs : List HearingEntry) :
    classifyLoop t tm d (h :: hs) = classifyLoop t tm (classifyStep t tm d h) hs := rfl

theorem dictGet_classifyLoop_other (t tm k : String)
    (h1 : k ≠ "listed_today") (h2 : k ≠ "listed_tomorrow") (h3 : k ≠ "next_hearing")
    (hs : List HearingEntry) :
    ∀ d : PyDict, dictGet (classifyLoop t tm d hs) k = dictGet d k := by
  induction hs with
  | nil => intro d; rfl
  | cons h hs ih =>
    intro d
    rw [classifyLoop_cons, ih]
    unfold classifyStep
    by_cases hd : h.date = t
    · rw [if_pos hd, dictGet_dictSet_ne _ _ _ _ h3, dictGet_dictSet_ne _ _ _ _ h1]
    · rw [if_neg hd]
      by_cases hd2 : h.date = tm
      · rw [if_pos hd2, dictGet_dictSet_ne _ _ _ _ h3, dictGet_dictSet_ne _ _ _ _ h2]
      · rw [if_neg hd2]

theorem dictGet_classifyLoop_listed_today (t tm : String) (hs : List HearingEntry) :
    ∀ d : PyDict,
      dictGet (classifyLoop t tm d hs) "listed_today" =
        if anyToday t hs then some (.bool true) else dictGet d "listed_today" := by
  induction hs with
  | nil => intro d; simp [classifyLoop_nil, anyToday]
  | cons h hs ih =>
    intro d
    rw [classifyLoop_cons, ih]
    unfold classifyStep
    by_cases hd : h.date = t
    · have hc : anyToday t (h :: hs) = true := by simp [anyToday, hd]
      rw [hc, if_pos rfl, if_pos hd,
        dictGet_dictSet_ne _ _ _ _ (by decide), dictGet_dictSet_self]
      split <;> rfl
    · have hc : anyToday t (h :: hs) = anyToday t hs := by simp [anyToday, hd]
      rw [hc]
      by_cases hd2 : h.date = tm
      · rw [if_neg hd, if_pos hd2,
          dictGet_dictSet_ne _ _ _ _ (by decide), dictGet_dictSet_ne _ _ _ _ (by decide)]
      · rw [if_neg hd, if_neg hd2]

theorem dictGet_classifyLoop_listed_tomorrow (t tm : String) (hs : List HearingEntry) :
    ∀ d : PyDict,
      dictGet (classifyLoop t tm d hs) "listed_tomorrow" =
        if anyTomorrowOnly t tm hs then some (.bool true)
        else dictGet d "listed_tomorrow" := by
  induction hs with
  | nil => intro d; simp [classifyLoop_nil, anyTomorrowOnly]
  | cons h hs ih =>
    intro d
    rw [classifyLoop_cons, ih]
    unfold classifyStep
    by_cases hd : h.date = t
    · have hb1 : (h.date == t) = true := beq_iff_eq.mpr hd
      have hc : anyTomorrowOnly t tm (h :: hs) = anyTomorrowOnly t tm hs := by
        simp [anyTomorrowOnly, List.any_cons, hb1]
      rw [hc, if_pos hd,
        dictGet_dictSet_ne _ _ _ _ (by decide), dictGet_dictSet_ne _ _ _ _ (by decide)]
    · have hb1 : (h.date == t) = false := beq_eq_false_iff_ne.mpr hd
      by_cases hd2 : h.date = tm
      · have hb2 : (h.date == tm) = true := beq_iff_eq.mpr hd2
        have hc : anyTomorrowOnly t tm (h :: hs) = true := by
          simp [anyTomorrowOnly, List.any_cons, hb1, hb2]
        rw [hc, if_pos rfl, if_neg hd, if_pos hd2,
          dictGet_dictSet_ne _ _ _ _ (by decide), dictGet_dictSet_self]
        split <;> rfl
      · have hb2 : (h.date == tm) = false := beq_eq_false_iff_ne.mpr hd2
        have hc : anyTomorrowOnly t tm (h :: hs) = anyTomorrowOnly t tm hs := by
          simp [anyTomorrowOnly, List.any_cons, hb1, hb2]
        rw [hc, if_neg hd, if_neg hd2]

theorem lastListed_nil (t tm : String) : lastListed t tm [] = none := rfl

theorem lastListed_foldl_init (t tm : String) (hs : List HearingEntry) :
    ∀ a : Option HearingEntry,
      hs.foldl (fun acc h => if h.date = t ∨ h.date = tm then some h else acc) a =
        match lastListed t tm hs with
        | some x => some x
        | none => a := by
  induction hs with
  | nil => intro a; simp [lastListed_nil]
  | cons h hs ih =>
    intro a
    rw [List.foldl_cons, ih]
    conv_rhs => rw [show lastListed t tm (h :: hs) =
      hs.foldl (fun acc h => if h.date = t ∨ h.date = tm then some h else acc)
        (if h.date = t ∨ h.date = tm then some h else none) from rfl, ih]
    cases hls : lastListed t tm hs with
    | some x => rfl
    | none => by_cases hc : h.date = t ∨ h.date = tm <;> simp [hc]

theorem lastListed_cons (t tm : String) (h : HearingEntry) (hs : List HearingEntry) :
    lastListed t tm (h :: hs) =
      match lastListed t tm hs with
      | some x => some x
      | none => if h.date = t ∨ h.date = tm then some h else none := by
  rw [show lastListed t tm (h :: hs) =
    hs.foldl (fun acc h => if h.date = t ∨ h.date = tm then some h else acc)
      (if h.date = t ∨ h.date = tm then some h else none) from rfl,
    lastListed_foldl_init]

theorem dictGet_classifyLoop_next_hearing (t tm : String) (hs : List HearingEntry) :
    ∀ d : PyDict,
      dictGet (classifyLoop t tm d hs) "next_hearing" =
        match lastListed t tm hs with
        | some x => some (.entry x)
        | none => dictGet d "next_hearing" := by
  induction hs with
  | nil => intro d; simp [classifyLoop_nil, lastListed_nil]
  | cons h hs ih =>
    intro d
    rw [classifyLoop_cons, ih, lastListed_cons]
    cases hls : lastListed t tm hs with
    | some x => rfl
    | none =>
      unfold classifyStep
      by_cases hd : h.date = t
      · rw [if_pos hd, dictGet_dictSet_self]
        simp [hd]
      · by_cases hd2 : h.date = tm
        · rw [if_neg hd, if_pos hd2, dictGet_dictSet_self]
          simp [hd, hd2]
        · rw [if_neg hd, if_neg hd2]
          simp [hd, hd2]

theorem lastListed_eq_none (t tm : String) (hs : List HearingEntry)
    (h : ∀ e ∈ hs, e.date ≠ t ∧ e.date ≠ tm) : lastListed t tm hs = none := by
  induction hs with
  | nil => rfl
  | cons e hs ih =>
    rw [lastListed_cons, ih (fun x hx => h x (List.mem_cons_of_mem _ hx))]
    have he := h e (List.mem_cons_self _ _)
    simp [he.1, he.2]

theorem parse_case_response_eq (doc : HtmlDoc) (ids : List (String × String)) (now : Date) :
    parse_case_response doc ids now =
      classifyLoop (fmtSlash now) (fmtSlash (nextDay now)) (preClassify doc ids)
        (extract_hearing_dates doc) := rfl

theorem preClassify_get_listed_today (doc : HtmlDoc) (ids : List (String × String)) :
    dictGet (preClassify doc ids) "listed_today" = some (.bool false) := by
  unfold preClassify
  rw [dictGet_dictSet_ne _ _ _ _ (by decide), dictGet_dictSet_ne _ _ _ _ (by decide),
    dictGet_dictSet_ne _ _ _ _ (by decide), dictGet_dictSet_ne _ _ _ _ (by decide),
    dictGet_dictSet_self]

theorem preClassify_get_listed_tomorrow (doc : HtmlDoc) (ids : List (String × String)) :
    dictGet (preClassify doc ids) "listed_tomorrow" = some (.bool false) := by
  unfold preClassify
  rw [dictGet_dictSet_ne _ _ _ _ (by decide), dictGet_dictSet_ne _ _ _ _ (by decide),
    dictGet_dictSet_ne _ _ _ _ (by decide), dictGet_dictSet_self]

theorem preClassify_get_next_hearing (doc : HtmlDoc) (ids : List (String × String)) :
    dictGet (preClassify doc ids) "next_hearing" = some .vnone := by
  unfold preClassify
  rw [dictGet_dictSet_ne _ _ _ _ (by decide), dictGet_dictSet_ne _ _ _ _ (by decide),
    dictGet_dictSet_self]

theorem preClassify_get_serial_number (doc : HtmlDoc) (ids : List (String × String)) :
    dictGet (preClassify doc ids) "serial_number" = some .vnone := by
  unfold preClassify
  rw [dictGet_dictSet_ne _ _ _ _ (by decide), dictGet_dictSet_self]

theorem preClassify_get_court_name (doc : HtmlDoc) (ids : List (String × String)) :
    dictGet (preClassify doc ids) "court_name" = some .vnone := by
  unfold preClassify
  rw [dictGet_dictSet_self]

theorem preClassify_get_hearing_dates (doc : HtmlDoc) (ids : List (String × String)) :
    dictGet (preClassify doc ids) "hearing_dates"
      = some (.entries (extract_hearing_dates doc)) := by
  unfold preClassify
  rw [dictGet_dictSet_ne _ _ _ _ (by decide), dictGet_dictSet_ne _ _ _ _ (by decide),
    dictGet_dictSet_ne _ _ _ _ (by decide), dictGet_dictSet_ne _ _ _ _ (by decide),
    dictGet_dictSet_ne _ _ _ _ (by decide), dictGet_dictSet_self]

theorem hearingStep_eq (acc : List HearingEntry) (cells : List String) :
    hearingStep acc cells = acc ++ (hearingRowToEntry cells).toList := by
  unfold hearingStep hearingRowToEntry
  by_cases h3 : 3 ≤ cells.length
  · by_cases hd : pyStrip (cells.getD 0 "") = ""
    · rw [if_pos h3, if_neg (not_not_intro hd), if_neg (fun hcon => hcon.2 hd)]
      exact (List.append_nil acc).symm
    · rw [if_pos h3, if_pos hd, if_pos ⟨h3, hd⟩]
      rfl
  · rw [if_neg h3, if_neg (fun hcon => h3 hcon.1)]
    exact (List.append_nil acc).symm

theorem foldl_hearingStep (rows : List (List String)) :
    ∀ acc : List HearingEntry,
      rows.foldl hearingStep acc = acc ++ rows.filterMap hearingRowToEntry := by
  induction rows with
  | nil => intro acc; simp
  | cons r rows ih =>
    intro acc
    rw [List.foldl_cons, hearingStep_eq, ih]
    cases h : hearingRowToEntry r <;> simp [List.filterMap_cons, h]

theorem findExact_none_of_findWord_none (doc : HtmlDoc)
    (h : findTableByClassWord doc "table" = none) :
    findTableByClassExact doc ["table", "table-bordered"] = none := by
  unfold findTableByClassWord at h
  unfold findTableByClassExact
  rw [List.findSome?_eq_none_iff] at h ⊢
  intro n hn
  have hw := h n hn
  cases n with
  | h3 s => rfl
  | h4 s => rfl
  | table t =>
    simp only at hw ⊢
    by_cases he : t.classes = ["table", "table-bordered"]
    · exfalso
      rw [he] at hw
      simp at hw
    · rw [if_neg he]

theorem foldl_append_bind {α β : Type} (g : α → List β) (l : List α) :
    ∀ acc : List β, l.foldl (fun a x => a ++ g x) acc = acc ++ l.flatMap g := by
  induction l with
  | nil => intro acc; simp
  | cons x l ih =>
    intro acc
    rw [List.foldl_cons, ih]
    simp [List.append_assoc]

theorem parse_cause_list_eq (doc : HtmlDoc) (date : String) :
    parse_cause_list doc date =
      (findAllTablesByClassWord doc "table").flatMap
        (fun it => (it.2.rows.drop 1).filterMap (causeRow doc it.1 date)) := by
  unfold parse_cause_list
  exact (foldl_append_bind
    (fun (it : Nat × HTable) => (it.2.rows.drop 1).filterMap (causeRow doc it.1 date))
    _ []).trans (by simp)

theorem mem_findAllTables (doc : HtmlDoc) (c : String) (i : Nat) (t : HTable)
    (h : (i, t) ∈ findAllTablesByClassWord doc c) :
    doc[i]? = some (.table t) ∧ t.classes.contains c = true := by
  unfold findAllTablesByClassWord at h
  rw [List.mem_filterMap] at h
  obtain ⟨⟨j, n⟩, hp, hmatch⟩ := h
  cases n with
  | h3 s => simp at hmatch
  | h4 s => simp at hmatch
  | table t' =>
    simp at hmatch
    obtain ⟨hcm, rfl, rfl⟩ := hmatch
    refine ⟨List.mk_mem_enum_iff_getElem?.mp hp, ?_⟩
    simpa using hcm

theorem preClassify_get_other (doc : HtmlDoc) (ids : List (String × String))
    (k : String) (hk : k ∉ reservedKeys) :
    dictGet (preClassify doc ids) k
      = dictGet (caseFieldsPart doc (seedIdentifiers ids)) k := by
  simp only [reservedKeys, List.mem_cons, List.not_mem_nil, or_false, not_or] at hk
  obtain ⟨h1, h2, h3, h4, h5, h6⟩ := hk
  unfold preClassify
  rw [dictGet_dictSet_ne _ _ _ _ h6, dictGet_dictSet_ne _ _ _ _ h5,
    dictGet_dictSet_ne _ _ _ _ h4, dictGet_dictSet_ne _ _ _ _ h3,
    dictGet_dictSet_ne _ _ _ _ h2, dictGet_dictSet_ne _ _ _ _ h1]

theorem extract_hearing_caseTableDoc (rows : List (List String)) :
    extract_hearing_dates (caseTableDoc rows) = [] := rfl

theorem caseFieldsPart_caseTableDoc (rows : List (List String)) (d : PyDict) :
    caseFieldsPart (caseTableDoc rows) d = rows.foldl caseFieldsStep d := rfl

theorem caseFieldsStep_pair (d : PyDict) (c0 c1 : String) :
    caseFieldsStep d [c0, c1] =
      if removeColons (pyStrip c0) ≠ "" ∧ pyStrip c1 ≠ "" then
        dictSet d (removeColons (pyStrip c0)) (.str (pyStrip c1))
      else d := rfl

/-- C1 (counterexample): on a response holding one hearing entry dated
today (2025-01-01 renders as `01/01/2025`) and one dated tomorrow, the
parsed record has `listed_today` and `listed_tomorrow` both true — the
flags are not mutually exclusive, and it is not the case that only
`listed_today` is set. -/
theorem claim1_counterexample :
    dictGet (parse_case_response docC1 [("cnr_number", "X")] ⟨1, 1, 2025⟩) "listed_today"
        = some (.bool true) ∧
    dictGet (parse_case_response docC1 [("cnr_number", "X")] ⟨1, 1, 2025⟩) "listed_tomorrow"
        = some (.bool true) :=
  ⟨rfl, rfl⟩

/-- C1 (amended): the two flags are independent rather than mutually
exclusive: `listed_today` is true exactly when some hearing entry's date
string equals today's rendering, and `listed_tomorrow` is true exactly
when some entry's date equals tomorrow's rendering without equaling
today's; for a sequence containing both a today-dated and a
tomorrow-dated entry, both flags are true. -/
theorem claim1_flags_characterization (doc : HtmlDoc) (ids : List (String × String))
    (now : Date) :
    dictGet (parse_case_response doc ids now) "listed_today"
        = some (.bool (anyToday (fmtSlash now) (extract_hearing_dates doc))) ∧
    dictGet (parse_case_response doc ids now) "listed_tomorrow"
        = some (.bool (anyTomorrowOnly (fmtSlash now) (fmtSlash (nextDay now))
            (extract_hearing_dates doc))) := by
  rw [parse_case_response_eq]
  constructor
  · rw [dictGet_classifyLoop_listed_today, preClassify_get_listed_today]
    cases anyToday (fmtSlash now) (extract_hearing_dates doc) <;> simp
  · rw [dictGet_classifyLoop_listed_tomorrow, preClassify_get_listed_tomorrow]
    cases anyTomorrowOnly (fmtSlash now) (fmtSlash (nextDay now))
      (extract_hearing_dates doc) <;> simp

/-- C2 (counterexample): for entries dated `01/01/2025` and `02/01/2025`
with reference instant 2025-01-01, the first (today) match does not win:
the loop keeps scanning and `next_hearing` ends at the tomorrow-dated
entry, whose date is not `01/01/2025` as the claim requires. -/
theorem claim2_counterexample :
    dictGet (parse_case_response docC2 [("cnr_number", "X")] ⟨1, 1, 2025⟩) "next_hearing"
        = some (.entry ⟨"02/01/2025", "p2", "s2"⟩) ∧
    ("02/01/2025" : String) ≠ "01/01/2025" :=
  ⟨rfl, by decide⟩

/-- C2 (amended): the classifier scans every entry with no break, and the
last entry whose date equals today's or tomorrow's rendering wins:
`next_hearing` is that last matching entry, or none when no entry
matches. -/
theorem claim2_last_match_wins (doc : HtmlDoc) (ids : List (String × String)) (now : Date) :
    dictGet (parse_case_response doc ids now) "next_hearing" =
      some (match lastListed (fmtSlash now) (fmtSlash (nextDay now))
              (extract_hearing_dates doc) with
            | some x => Val.entry x
            | none => Val.vnone) := by
  rw [parse_case_response_eq, dictGet_classifyLoop_next_hearing]
  cases hls : lastListed (fmtSlash now) (fmtSlash (nextDay now)) (extract_hearing_dates doc) with
  | some x => rfl
  | none => rw [preClassify_get_next_hearing]

/-- C3: when no extracted hearing entry's date string equals the
`DD/MM/YYYY` rendering of the reference date or of its calendar
successor — entries in any other or malformed format never match — the
classifier leaves `listed_today` and `listed_tomorrow` false and
`next_hearing` at none. -/
theorem claim3_no_match_neither (doc : HtmlDoc) (ids : List (String × String)) (now : Date)
    (h : ∀ e ∈ extract_hearing_dates doc,
      e.date ≠ fmtSlash now ∧ e.date ≠ fmtSlash (nextDay now)) :
    dictGet (parse_case_response doc ids now) "listed_today" = some (.bool false) ∧
    dictGet (parse_case_response doc ids now) "listed_tomorrow" = some (.bool false) ∧
    dictGet (parse_case_response doc ids now) "next_hearing" = some .vnone := by
  have hat : anyToday (fmtSlash now) (extract_hearing_dates doc) = false := by
    rw [anyToday, List.any_eq_false]
    intro e he
    simpa using (h e he).1
  have hatm : anyTomorrowOnly (fmtSlash now) (fmtSlash (nextDay now))
      (extract_hearing_dates doc) = false := by
    rw [anyTomorrowOnly, List.any_eq_false]
    intro e he
    simp [beq_eq_false_iff_ne.mpr (h e he).2]
  have hll := lastListed_eq_none (fmtSlash now) (fmtSlash (nextDay now)) _ h
  rw [parse_case_response_eq]
  refine ⟨?_, ?_, ?_⟩
  · rw [dictGet_classifyLoop_listed_today, hat]
    simp [preClassify_get_listed_today]
  · rw [dictGet_classifyLoop_listed_tomorrow, hatm]
    simp [preClassify_get_listed_tomorrow]
  · rw [dictGet_classifyLoop_next_hearing, hll, preClassify_get_next_hearing]

/-- Witness for C3 at a concrete input: a single entry dated
`05/01/2025` with reference instant 2025-01-01. -/
theorem claim3_witness :
    (∀ e ∈ extract_hearing_dates docC3,
      e.date ≠ fmtSlash ⟨1, 1, 2025⟩ ∧ e.date ≠ fmtSlash (nextDay ⟨1, 1, 2025⟩)) ∧
    (dictGet (parse_case_response docC3 [("cnr_number", "X")] ⟨1, 1, 2025⟩) "listed_today"
        = some (.bool false) ∧
      dictGet (parse_case_response docC3 [("cnr_number", "X")] ⟨1, 1, 2025⟩) "listed_tomorrow"
        = some (.bool false) ∧
      dictGet (parse_case_response docC3 [("cnr_number", "X")] ⟨1, 1, 2025⟩) "next_hearing"
        = some .vnone) :=
  ⟨by decide, claim3_no_match_neither docC3 [("cnr_number", "X")] ⟨1, 1, 2025⟩ (by decide)⟩

/-- C8: when the network exchange raises, `get_case_details_by_cnr`,
`get_case_details_by_number` and `download_cause_list` all return a
result object carrying an `error` message instead of propagating the
exception. -/
theorem claim8_error_dict_on_failure (e cnr ct cn cy : String) (dateArg : Option String)
    (now : Date) :
    dictGet (get_case_details_by_cnr (.error e) cnr now) "error"
        = some (.str ("Failed to fetch case details: " ++ e)) ∧
    dictGet (get_case_details_by_number (.error e) ct cn cy now) "error"
        = some (.str ("Failed to fetch case details: " ++ e)) ∧
    download_cause_list (.error e) dateArg now
        = .errorDict [("error", .str ("Failed to download cause list: " ++ e))] :=
  ⟨rfl, rfl, rfl⟩

/-- C4: when the document has no table matching class `table`, parsing
succeeds and returns a record whose non-derived content is exactly the
seeded identifiers — every key outside the always-assigned derived keys
looks up as it does in the identifier seed, so the label-to-value mapping
is empty — and the extracted hearing sequence is empty too. -/
theorem claim4_no_table_identifiers_only (doc : HtmlDoc) (ids : List (String × String))
    (now : Date) (h : findTableByClassWord doc "table" = none) :
    (∀ k, k ∉ reservedKeys →
      dictGet (parse_case_response doc ids now) k = dictGet (seedIdentifiers ids) k) ∧
    dictGet (parse_case_response doc ids now) "hearing_dates" = some (.entries []) := by
  have hex : extract_hearing_dates doc = [] := by
    unfold extract_hearing_dates
    rw [findExact_none_of_findWord_none doc h]
  have hcf : caseFieldsPart doc (seedIdentifiers ids) = seedIdentifiers ids := by
    unfold caseFieldsPart
    rw [h]
  rw [parse_case_response_eq, hex]
  constructor
  · intro k hk
    rw [classifyLoop_nil, preClassify_get_other doc ids k hk, hcf]
  · rw [classifyLoop_nil, preClassify_get_hearing_dates, hex]

/-- Witness for C4 at a concrete input: a document holding only a
heading, with a CNR identifier seeded. -/
theorem claim4_witness :
    findTableByClassWord docC4 "table" = none ∧
    ("Case Type" ∉ reservedKeys) ∧
    dictGet (parse_case_response docC4 [("cnr_number", "ABC")] ⟨1, 1, 2025⟩) "Case Type"
        = dictGet (seedIdentifiers [("cnr_number", "ABC")]) "Case Type" ∧
    dictGet (parse_case_response docC4 [("cnr_number", "ABC")] ⟨1, 1, 2025⟩) "hearing_dates"
        = some (.entries []) := by
  refine ⟨rfl, by decide, ?_, ?_⟩
  · exact (claim4_no_table_identifiers_only docC4 [("cnr_number", "ABC")]
      ⟨1, 1, 2025⟩ rfl).1 "Case Type" (by decide)
  · exact (claim4_no_table_identifiers_only docC4 [("cnr_number", "ABC")]
      ⟨1, 1, 2025⟩ rfl).2

/-- C5 (counterexample): for the case-details row with label
`" Case:Type: "` and value `" Civil "`, the claim predicts the recorded
label `"Case:Type"` (trailing colon stripped, interior colon preserved),
but the code removes every colon: the record maps `"CaseType"` to
`"Civil"` and has no `"Case:Type"` key at all. -/
theorem claim5_counterexample :
    dictGet (parse_case_response docC5 [] ⟨1, 1, 2025⟩) "CaseType" = some (.str "Civil") ∧
    dictGet (parse_case_response docC5 [] ⟨1, 1, 2025⟩) "Case:Type" = none :=
  ⟨rfl, rfl⟩

/-- C5 (amended): for a case-details row with cells `c0, c1`, the label
is cell 1's text trimmed with every colon removed (interior colons
included, not only a trailing one) and the value is cell 2's text
trimmed; the pair is recorded when both are non-empty, and a row whose
colon-stripped label or trimmed value is empty contributes nothing. -/
theorem claim5_all_colons_removed (c0 c1 : String) (ids : List (String × String))
    (now : Date) :
    (removeColons (pyStrip c0) ≠ "" → pyStrip c1 ≠ "" →
      removeColons (pyStrip c0) ∉ reservedKeys →
      dictGet (parse_case_response (caseTableDoc [[c0, c1]]) ids now)
          (removeColons (pyStrip c0))
        = some (.str (pyStrip c1))) ∧
    ((removeColons (pyStrip c0) = "" ∨ pyStrip c1 = "") → ∀ k, k ∉ reservedKeys →
      dictGet (parse_case_response (caseTableDoc [[c0, c1]]) ids now) k
        = dictGet (seedIdentifiers ids) k) := by
  constructor
  · intro hk hv hres
    rw [parse_case_response_eq, extract_hearing_caseTableDoc, classifyLoop_nil,
      preClassify_get_other _ _ _ hres, caseFieldsPart_caseTableDoc,
      List.foldl_cons, List.foldl_nil, caseFieldsStep_pair,
      if_pos ⟨hk, hv⟩, dictGet_dictSet_self]
  · intro hskip k hnk
    rw [parse_case_response_eq, extract_hearing_caseTableDoc, classifyLoop_nil,
      preClassify_get_other _ _ _ hnk, caseFieldsPart_caseTableDoc,
      List.foldl_cons, List.foldl_nil, caseFieldsStep_pair,
      if_neg (fun hcon => hskip.elim (fun h0 => hcon.1 h0) (fun h0 => hcon.2 h0))]

/-- Witness for C5 at concrete inputs: the colon-laden label row is
recorded under its fully colon-stripped key, and a row whose label strips
to nothing is skipped. -/
theorem claim5_witness :
    (removeColons (pyStrip " Case:Type: ") ≠ "" ∧ pyStrip " Civil " ≠ "" ∧
      removeColons (pyStrip " Case:Type: ") ∉ reservedKeys ∧
      dictGet (parse_case_response (caseTableDoc [[" Case:Type: ", " Civil "]]) [] ⟨1, 1, 2025⟩)
          (removeColons (pyStrip " Case:Type: "))
        = some (.str (pyStrip " Civil "))) ∧
    (removeColons (pyStrip " ::: ") = "" ∧ ("x" : String) ∉ reservedKeys ∧
      dictGet (parse_case_response (caseTableDoc [[" ::: ", "v"]]) [] ⟨1, 1, 2025⟩) "x"
        = dictGet (seedIdentifiers []) "x") := by
  refine ⟨⟨by decide, by decide, by decide, ?_⟩, ⟨by decide, by decide, ?_⟩⟩
  · exact (claim5_all_colons_removed " Case:Type: " " Civil " [] ⟨1, 1, 2025⟩).1
      (by decide) (by decide) (by decide)
  · exact (claim5_all_colons_removed " ::: " "v" [] ⟨1, 1, 2025⟩).2
      (Or.inl (by decide)) "x" (by decide)

/-- C6: the hearing extractor skips the first row of the hearing-history
table (exact class `table table-bordered`), turns each later row with at
least three cells and a non-empty trimmed date cell into an entry from
cells 0-2, silently drops rows with fewer than three cells or an empty
date, preserves document order, and yields the empty sequence when the
table is absent. -/
theorem claim6_hearing_extraction (doc : HtmlDoc) :
    extract_hearing_dates doc =
      match findTableByClassExact doc ["table", "table-bordered"] with
      | none => []
      | some t => (t.rows.drop 1).filterMap hearingRowToEntry := by
  unfold extract_hearing_dates
  cases findTableByClassExact doc ["table", "table-bordered"] with
  | none => rfl
  | some t => simpa using foldl_hearingStep (t.rows.drop 1) []

/-- C7 (counterexample): in a document where an `h3` ("Court A") is
followed by a nearer `h4` ("Court B") before the table, the produced
entry's court name is "Court A", while the nearest preceding level-3 or
level-4 heading — what the claim requires — is the `h4` "Court B". -/
theorem claim7_counterexample :
    (parse_cause_list docC7 "05-01-2025").map (fun e => e.court_name) = ["Court A"] ∧
    specNearestHeading docC7 2 = some "Court B" ∧
    ("Court A" : String) ≠ "Court B" :=
  ⟨rfl, rfl, by decide⟩

/-- C7 (amended): for every cause-list document and date, the produced
cause list is exactly the concatenation, over the `table`-classed tables
in document order, of the entries built from each table's rows after the
header, and every entry's court name is resolved at its own table's
position by a backward search that prefers level-3 headings: the nearest
preceding `h3`'s text if any `h3` precedes that table (even when an `h4`
is closer), else the nearest preceding `h4`'s text, else
"Unknown Court"; in particular, for a document with two tables each
preceded by its own distinct `h3` heading, every entry carries the
heading of its own table, not the other table's. -/
theorem claim7_court_name_h3_precedence :
    (∀ (doc : HtmlDoc) (date : String),
      parse_cause_list doc date =
        (doc.enum.filterMap (fun p =>
          match p.2 with
          | .table t => if t.classes.contains "table" then some (p.1, t) else none
          | _ => none)).flatMap
          (fun it => (it.2.rows.drop 1).filterMap (fun cells =>
            if 4 ≤ cells.length then
              some { date := date,
                     serial_number := pyStrip (cells.getD 0 ""),
                     case_number := pyStrip (cells.getD 1 ""),
                     parties := pyStrip (cells.getD 2 ""),
                     purpose := pyStrip (cells.getD 3 ""),
                     court_name :=
                       match (doc.take it.1).reverse.findSome? (fun n =>
                           match n with | .h3 s => some (pyStrip s) | _ => none) with
                       | some s => s
                       | none =>
                         match (doc.take it.1).reverse.findSome? (fun n =>
                             match n with | .h4 s => some (pyStrip s) | _ => none) with
                         | some s => s
                         | none => "Unknown Court" }
            else none))) ∧
    (parse_cause_list docC7b "05-01-2025").map (fun e => e.court_name)
      = ["Court A", "Court B"] := by
  constructor
  · intro doc date
    rw [parse_cause_list_eq]
    rfl
  · rfl

/-- C10: a case-details row whose colon-stripped, trimmed label equals a
caller-supplied identifier key overwrites the echoed identifier with the
portal-derived value — identifiers are seeded first and not protected
from collision with portal field labels. -/
theorem claim10_portal_overwrites_identifier (ids : List (String × String))
    (k w c0 c1 : String) (rs : List (List String)) (now : Date)
    (_hid : dictGet (seedIdentifiers ids) k = some (.str w))
    (hkey : removeColons (pyStrip c0) = k)
    (hk0 : k ≠ "")
    (hval : pyStrip c1 ≠ "")
    (hres : k ∉ reservedKeys) :
    dictGet (parse_case_response (caseTableDoc (rs ++ [[c0, c1]])) ids now) k
        = some (.str (pyStrip c1)) := by
  rw [parse_case_response_eq, extract_hearing_caseTableDoc, classifyLoop_nil,
    preClassify_get_other _ _ _ hres, caseFieldsPart_caseTableDoc,
    List.foldl_append, List.foldl_cons, List.foldl_nil, caseFieldsStep_pair, hkey,
    if_pos ⟨hk0, hval⟩, dictGet_dictSet_self]

/-- Witness for C10 at a concrete input: the seeded CNR identifier
`"OLD"` is overwritten by the portal row value `"NEW"`. -/
theorem claim10_witness :
    dictGet (seedIdentifiers [("cnr_number", "OLD")]) "cnr_number" = some (.str "OLD") ∧
    removeColons (pyStrip "cnr_number:") = "cnr_number" ∧
    ("cnr_number" : String) ≠ "" ∧
    pyStrip "NEW" ≠ "" ∧
    ("cnr_number" : String) ∉ reservedKeys ∧
    dictGet (parse_case_response (caseTableDoc ([] ++ [["cnr_number:", "NEW"]]))
        [("cnr_number", "OLD")] ⟨1, 1, 2025⟩) "cnr_number" = some (.str (pyStrip "NEW")) := by
  refine ⟨rfl, rfl, by decide, by decide, by decide, ?_⟩
  exact claim10_portal_overwrites_identifier [("cnr_number", "OLD")] "cnr_number" "OLD"
    "cnr_number:" "NEW" [] ⟨1, 1, 2025⟩ rfl rfl (by decide) (by decide) (by decide)

/-- C9: for every document, identifier set and reference date, the record
returned by `_parse_case_response` has `serial_number` and `court_name`
equal to none: they are initialized to none after every other assignment
to them could occur and the classification loop never touches them. -/
theorem claim9_serial_court_always_none (doc : HtmlDoc) (ids : List (String × String))
    (now : Date) :
    dictGet (parse_case_response doc ids now) "serial_number" = some .vnone ∧
    dictGet (parse_case_response doc ids now) "court_name" = some .vnone := by
  rw [parse_case_response_eq]
  constructor
  · rw [dictGet_classifyLoop_other _ _ _ (by decide) (by decide) (by decide),
      preClassify_get_serial_number]
  · rw [dictGet_classifyLoop_other _ _ _ (by decide) (by decide) (by decide),
      preClassify_get_court_name]

end ECourts
